import Mathlib

/-!
Verification of the `defra-ma/statsmodels` excerpt against its
natural-language specification.

The excerpt contains three files:

* `.github/workflows/generate-documentation.yml` — the "Generate
  Documentation" CI workflow (claims C1-C8);
* `examples/notebooks/robust_models_1.ipynb` — contains the
  `simulate_seasonal_term` helper (claim C9);
* `examples/notebooks/glm_formula.ipynb` — the GLM formula example with
  `double_it` (claim C10).

The workflow YAML is embedded shallowly: the `on:` trigger configuration,
the concurrency block, the job and its twelve steps are transcribed as Lean
data, and the fragment of the GitHub Actions expression language actually
used by the file (`github.event_name == 'x'`, `a || b`, string
interpolation, `secrets.*`, `github.event.*`, `matrix.*`) is given an
evaluation semantics following the documented GitHub behaviour: a step with
no `if:` always runs, otherwise it runs when its expression is truthy;
`github.head_ref` renders as the empty string outside pull-request runs;
`x || y` yields `x` when `x` is truthy and `y` otherwise.
-/

namespace GenDoc

/-- A value of the GitHub Actions expression language as used by this
workflow: null (an absent context field), a boolean, or a string. -/
inductive GHValue
| vnull : GHValue
| vbool : Bool → GHValue
| vstr : String → GHValue
deriving DecidableEq, Repr

/-- Truthiness of a GitHub Actions expression value: null and the empty
string are falsy, a boolean is itself. -/
def GHValue.truthy : GHValue → Bool
| .vnull => false
| .vbool b => b
| .vstr s => !(s == "")

/-- Rendering of a value into a string, as GitHub does when interpolating
`$\x7b\x7b e \x7d\x7d` into text or comparing with `==`. -/
def GHValue.render : GHValue → String
| .vnull => ""
| .vbool b => if b then "true" else "false"
| .vstr s => s

/-- The fragment of the GitHub Actions expression language used by
`generate-documentation.yml`: string literals, the context fields
`github.event_name`, `github.head_ref`, `github.run_id`,
`github.workflow`, `secrets.NAME`, `github.event.PATH`, `matrix.KEY`,
equality, `||`, and concatenation of two rendered pieces. -/
inductive GHExpr
| lit : String → GHExpr
| eventName : GHExpr
| headRef : GHExpr
| runId : GHExpr
| workflowName : GHExpr
| secret : String → GHExpr
| eventPath : String → GHExpr
| matrixKey : String → GHExpr
| eqE : GHExpr → GHExpr → GHExpr
| orE : GHExpr → GHExpr → GHExpr
| cat : GHExpr → GHExpr → GHExpr
deriving DecidableEq, Repr

/-- A GitHub event that may be delivered to the repository.  The
constructors carry the data the workflow file inspects: the activity type
and tag name of a release, the branch of a push, the activity type and head
ref of a pull request; `other` stands for every further event kind
(schedule, workflow_dispatch, issues, ...). -/
inductive Event
| release : String → String → Event
| push : String → Event
| pull_request : String → String → Event
| other : String → Event
deriving DecidableEq, Repr

/-- The `github.event_name` context value of an event. -/
def Event.name : Event → String
| .release _ _ => "release"
| .push _ => "push"
| .pull_request _ _ => "pull_request"
| .other n => n

/-- The `github.head_ref` context value: the head branch for a pull-request
run, rendered as the empty string for every other event kind (GitHub only
defines `head_ref` for pull-request-like events). -/
def Event.headRefStr : Event → String
| .pull_request _ hr => hr
| _ => ""

/-- The `github.event.release.tag_name` payload field, empty when the
event is not a release (a missing payload path renders as empty). -/
def Event.releaseTagName : Event → String
| .release _ tag => tag
| _ => ""

/-- The context of one workflow run: the triggering event, the
run id (unique per run), the repository secrets, and the matrix values
assigned to the job instance. -/
structure RunCtx where
  event : Event
  run_id : String
  secrets : String → String
  matrix : String → String

/-- The workflow's `name:` field. -/
def workflowTitle : String := "Generate Documentation"

/-- Evaluation of an expression in a run context. -/
def evalE (ctx : RunCtx) : GHExpr → GHValue
| .lit s => .vstr s
| .eventName => .vstr ctx.event.name
| .headRef => .vstr ctx.event.headRefStr
| .runId => .vstr ctx.run_id
| .workflowName => .vstr workflowTitle
| .secret n => .vstr (ctx.secrets n)
| .eventPath p =>
    if p == "release.tag_name" then .vstr ctx.event.releaseTagName else .vnull
| .matrixKey k => .vstr (ctx.matrix k)
| .eqE a b => .vbool ((evalE ctx a).render == (evalE ctx b).render)
| .orE a b => if (evalE ctx a).truthy then evalE ctx a else evalE ctx b
| .cat a b => .vstr ((evalE ctx a).render ++ (evalE ctx b).render)

/-- One step of a job, with the fields present in the workflow file:
`name`, `uses`, `run`, `with` arguments, `env` bindings, the optional `if:`
condition, and `continue-on-error` (absent in the file for every step, so
recorded with GitHub's default `false`). -/
structure Step where
  name : String
  uses : Option String
  run : Option String
  withArgs : List (String × GHExpr)
  env : List (String × GHExpr)
  cond : Option GHExpr
  continueOnError : Bool
deriving DecidableEq, Repr

/-- The condition `github.event_name == 'pull_request'` (line 42). -/
def condIsPR : GHExpr := .eqE .eventName (.lit "pull_request")

/-- The condition `github.event_name == 'release' || github.event_name ==
'push'` (lines 50 and 88). -/
def condIsReleaseOrPush : GHExpr :=
  .orE (.eqE .eventName (.lit "release")) (.eqE .eventName (.lit "push"))

/-- Step `Checkout` (lines 32-35). -/
def stepCheckout : Step :=
  { name := "Checkout"
    uses := some "actions/checkout@v4"
    run := none
    withArgs := [("fetch-depth", .lit "0")]
    env := []
    cond := none
    continueOnError := false }

/-- Step `Checkout statsmodels.github.io without token` (lines 36-42),
guarded by `github.event_name == 'pull_request'`. -/
def stepCheckoutGhioNoToken : Step :=
  { name := "Checkout statsmodels.github.io without token"
    uses := some "actions/checkout@v4"
    run := none
    withArgs := [("fetch-depth", .lit "1"),
                 ("repository", .lit "statsmodels/statsmodels.github.io"),
                 ("path", .lit "statsmodels.github.io")]
    env := []
    cond := some condIsPR
    continueOnError := false }

/-- Step `Checkout statsmodels.github.io with token` (lines 43-50),
guarded by `github.event_name == 'release' || github.event_name == 'push'`
and supplied the `DOCBUILD_TOKEN` secret. -/
def stepCheckoutGhioToken : Step :=
  { name := "Checkout statsmodels.github.io with token"
    uses := some "actions/checkout@v4"
    run := none
    withArgs := [("fetch-depth", .lit "1"),
                 ("repository", .lit "statsmodels/statsmodels.github.io"),
                 ("path", .lit "statsmodels.github.io"),
                 ("token", .secret "DOCBUILD_TOKEN")]
    env := []
    cond := some condIsReleaseOrPush
    continueOnError := false }

/-- Step `Event type` (lines 51-54). -/
def stepEventType : Step :=
  { name := "Event type"
    uses := none
    run := some "echo $EVENT_TYPE"
    withArgs := []
    env := [("EVENT_TYPE", .eventName)]
    cond := none
    continueOnError := false }

/-- Step `Install pandoc` (lines 55-56). -/
def stepInstallPandoc : Step :=
  { name := "Install pandoc"
    uses := some "r-lib/actions/setup-pandoc@v2"
    run := none
    withArgs := []
    env := []
    cond := none
    continueOnError := false }

/-- Step `Install graphviz` (lines 57-58). -/
def stepInstallGraphviz : Step :=
  { name := "Install graphviz"
    uses := some "ts-graphviz/setup-graphviz@v2"
    run := none
    withArgs := []
    env := []
    cond := none
    continueOnError := false }

/-- Step `Set up Python $\x7b\x7b matrix.python-version \x7d\x7d`
(lines 59-63). -/
def stepSetupPython : Step :=
  { name := "Set up Python \x7b\x7bmatrix.python-version\x7d\x7d"
    uses := some "actions/setup-python@v5"
    run := none
    withArgs := [("python-version", .matrixKey "python-version"),
                 ("cache", .lit "pip")]
    env := []
    cond := none
    continueOnError := false }

/-- Step `Install dependencies` (lines 64-70). -/
def stepInstallDependencies : Step :=
  { name := "Install dependencies"
    uses := none
    run := some ("python -m pip install --upgrade pip wheel setuptools\n" ++
                 "python -m pip install -r requirements.txt\n" ++
                 "python -m pip install -r requirements-dev.txt\n" ++
                 "python -m pip install -r requirements-doc.txt\n" ++
                 "python -m pip list\n")
    withArgs := []
    env := []
    cond := none
    continueOnError := false }

/-- Step `Install statsmodels` (lines 71-72). -/
def stepInstallStatsmodels : Step :=
  { name := "Install statsmodels"
    uses := none
    run := some "python -m pip install . -vv"
    withArgs := []
    env := []
    cond := none
    continueOnError := false }

/-- Step `Build documentation` (lines 73-77): the Sphinx `make html`. -/
def stepBuildDocumentation : Step :=
  { name := "Build documentation"
    uses := none
    run := some "pushd docs\nmake html\npopd\n"
    withArgs := []
    env := []
    cond := none
    continueOnError := false }

/-- Step `Move and commit documentation` (lines 78-82): receives
`GIT_TAG` from `github.event.release.tag_name` and has no `if:`
condition. -/
def stepMoveAndCommit : Step :=
  { name := "Move and commit documentation"
    uses := none
    run := some "source tools/ci/docbuild-commit.sh\n"
    withArgs := []
    env := [("GIT_TAG", .eventPath "release.tag_name")]
    cond := none
    continueOnError := false }

/-- Step `Push changes` (lines 83-88): receives the `DOCBUILD_TOKEN`
secret and is guarded by `github.event_name == 'release' ||
github.event_name == 'push'`. -/
def stepPushChanges : Step :=
  { name := "Push changes"
    uses := none
    run := some "source tools/ci/docbuild-push.sh\n"
    withArgs := []
    env := [("PERSONAL_ACCESS_TOKEN", .secret "DOCBUILD_TOKEN")]
    cond := some condIsReleaseOrPush
    continueOnError := false }

/-- The `build` job of the workflow (lines 18-88): `fail-fast: false`, a
one-element python-version matrix, and the twelve steps in file order. -/
structure Job where
  failFast : Bool
  matrixPythonVersion : List String
  steps : List Step

/-- The `build` job as written in the file. -/
def buildJob : Job :=
  { failFast := false
    matrixPythonVersion := ["3.10"]
    steps := [stepCheckout,
              stepCheckoutGhioNoToken,
              stepCheckoutGhioToken,
              stepEventType,
              stepInstallPandoc,
              stepInstallGraphviz,
              stepSetupPython,
              stepInstallDependencies,
              stepInstallStatsmodels,
              stepBuildDocumentation,
              stepMoveAndCommit,
              stepPushChanges] }

/-- GitHub step semantics: a step with no `if:` runs; otherwise it runs
exactly when its condition evaluates truthy in the run's context. -/
def stepRuns (ctx : RunCtx) (s : Step) : Bool :=
  match s.cond with
  | none => true
  | some e => (evalE ctx e).truthy

/-- The steps of the build job executed by a run, in file order (GitHub
executes the steps of a job sequentially, skipping those whose condition
is false). -/
def executedSteps (ctx : RunCtx) : List Step :=
  buildJob.steps.filter (stepRuns ctx)

/-- A generic `on:` trigger configuration: for each event kind the file
may list, whether it appears and with what filter.  `none` means the kind
is absent from the `on:` block.  For `pull_request`, `some none` means the
kind is listed with no `types:` filter. -/
structure OnConfig where
  releaseTypes : Option (List String)
  pushBranches : Option (List String)
  pullRequestTypes : Option (Option (List String))
  scheduleCrons : Option (List String)
  workflowDispatchOn : Bool

/-- The `on:` block of `generate-documentation.yml` (lines 3-9):
`release: types: [published]`, `push: branches: [main]`, and a bare
`pull_request:`; no schedule, no workflow_dispatch, nothing else. -/
def genDocOn : OnConfig :=
  { releaseTypes := some ["published"]
    pushBranches := some ["main"]
    pullRequestTypes := some none
    scheduleCrons := none
    workflowDispatchOn := false }

/-- GitHub's documented default activity filter for a bare
`pull_request:` trigger with no `types:` key: only `opened`,
`synchronize` and `reopened` activities start the workflow (a `closed`,
`labeled`, ... pull-request event does not). -/
def defaultPRTypes : List String := ["opened", "synchronize", "reopened"]

/-- Generic trigger semantics of an `on:` configuration: a release event
starts the workflow when releases are listed and its activity type passes
the `types:` filter; a push when pushes are listed and the branch passes
the `branches:` filter; a pull-request event when pull requests are listed
and its activity passes the filter — an explicit `types:` list when given,
otherwise GitHub's default `opened`/`synchronize`/`reopened` filter; every
other event kind never starts it (schedules and manual dispatches are
events of the `other` kind here, with no payload the file reads). -/
def triggersOn (cfg : OnConfig) : Event → Bool
| .release act _ =>
    match cfg.releaseTypes with
    | none => false
    | some ts => ts.contains act
| .push br =>
    match cfg.pushBranches with
    | none => false
    | some bs => bs.contains br
| .pull_request act _ =>
    match cfg.pullRequestTypes with
    | none => false
    | some none => defaultPRTypes.contains act
    | some (some ts) => ts.contains act
| .other n =>
    (cfg.scheduleCrons.isSome && n == "schedule") ||
    (cfg.workflowDispatchOn && n == "workflow_dispatch")

/-- The workflow's `concurrency.group` expression (line 13):
`$\x7b\x7b github.workflow \x7d\x7d-$\x7b\x7b github.head_ref ||
github.run_id \x7d\x7d`. -/
def concurrencyGroupExpr : GHExpr :=
  .cat .workflowName (.cat (.lit "-") (.orE .headRef .runId))

/-- The rendered concurrency group of a run. -/
def concurrencyGroup (ctx : RunCtx) : String :=
  (evalE ctx concurrencyGroupExpr).render

/-- The workflow's `concurrency.cancel-in-progress` flag (line 14). -/
def cancelInProgress : Bool := true

/-- GitHub concurrency semantics: a newly queued run cancels an in-flight
run exactly when cancel-in-progress is set and the two runs land in the
same concurrency group. -/
def cancels (newRun inflight : RunCtx) : Bool :=
  cancelInProgress && (concurrencyGroup newRun == concurrencyGroup inflight)

/-- The phase of a step in the job's pipeline, read off from what the step
invokes: a repository checkout (`actions/checkout`), a diagnostic echo, a
dependency installation (tool setup actions and `pip install` runs), the
Sphinx build (`make html`), the documentation commit
(`docbuild-commit.sh`), or the push (`docbuild-push.sh`). -/
inductive Phase
| checkout
| diagnostic
| installDeps
| buildDocs
| commitDocs
| pushDocs
deriving DecidableEq, Repr

/-- Whether the character list `sub` occurs contiguously in `l`. -/
def listContainsSub : List Char → List Char → Bool
| [], sub => sub.isEmpty
| c :: t, sub => sub.isPrefixOf (c :: t) || listContainsSub t sub

/-- Whether the string `pat` occurs in `s`. -/
def strContainsSub (s pat : String) : Bool :=
  listContainsSub s.data pat.data

/-- Classify a step of the job by what its `uses` action or `run` script
invokes. -/
def phaseOf (s : Step) : Phase :=
  match s.uses with
  | some u =>
      if u == "actions/checkout@v4" then .checkout else .installDeps
  | none =>
      match s.run with
      | some r =>
          if strContainsSub r "make html" then .buildDocs
          else if strContainsSub r "docbuild-commit.sh" then .commitDocs
          else if strContainsSub r "docbuild-push.sh" then .pushDocs
          else if strContainsSub r "pip install" then .installDeps
          else .diagnostic
      | none => .diagnostic

/-- The pipeline order of the phases: checkout before diagnostics before
installation before build before commit before push. -/
def Phase.rank : Phase → Nat
| .checkout => 0
| .diagnostic => 1
| .installDeps => 2
| .buildDocs => 3
| .commitDocs => 4
| .pushDocs => 5

/-- The secret names an expression reads. -/
def secretRefs : GHExpr → List String
| .secret n => [n]
| .eqE a b => secretRefs a ++ secretRefs b
| .orE a b => secretRefs a ++ secretRefs b
| .cat a b => secretRefs a ++ secretRefs b
| _ => []

/-- The event-payload paths (`github.event.PATH`) an expression reads. -/
def eventPathRefs : GHExpr → List String
| .eventPath p => [p]
| .eqE a b => eventPathRefs a ++ eventPathRefs b
| .orE a b => eventPathRefs a ++ eventPathRefs b
| .cat a b => eventPathRefs a ++ eventPathRefs b
| _ => []

/-- All expressions appearing in a step: its `with` arguments, its `env`
bindings, and its `if:` condition. -/
def stepExprs (s : Step) : List GHExpr :=
  s.withArgs.map Prod.snd ++ s.env.map Prod.snd ++ s.cond.toList

/-- The secret names a step reads. -/
def stepSecrets (s : Step) : List String :=
  (stepExprs s).flatMap secretRefs

/-- The event-payload paths a step reads. -/
def stepEventPaths (s : Step) : List String :=
  (stepExprs s).flatMap eventPathRefs

/-- Whether an expression only reads the event name (besides literals):
such a condition cannot depend on the outcome of earlier steps, on
secrets, or on anything but the kind of the triggering event. -/
def readsOnlyEventName : GHExpr → Bool
| .lit _ => true
| .eventName => true
| .eqE a b => readsOnlyEventName a && readsOnlyEventName b
| .orE a b => readsOnlyEventName a && readsOnlyEventName b
| .cat a b => readsOnlyEventName a && readsOnlyEventName b
| _ => false

/-- Whether a step's condition (when present) only reads the event name. -/
def stepCondOnlyEventName (s : Step) : Bool :=
  match s.cond with
  | none => true
  | some e => readsOnlyEventName e

/-- A concrete pull-request run context, used to evaluate the step
conditions on a pull-request event. -/
def prCtx : RunCtx :=
  { event := .pull_request "opened" "feature-branch"
    run_id := "12345"
    secrets := fun _ => "tok"
    matrix := fun _ => "3.10" }

/-- A concrete push-to-main run context with run id 1001. -/
def pushCtxA : RunCtx :=
  { event := .push "main"
    run_id := "1001"
    secrets := fun _ => "tok"
    matrix := fun _ => "3.10" }

/-- A second concrete push-to-main run context, a later run of the same
workflow on the same ref, whose run id is the fresh value 1002. -/
def pushCtxB : RunCtx :=
  { event := .push "main"
    run_id := "1002"
    secrets := fun _ => "tok"
    matrix := fun _ => "3.10" }

/-- A concrete release run context. -/
def relCtx : RunCtx :=
  { event := .release "published" "v0.14.1"
    run_id := "777"
    secrets := fun _ => "tok"
    matrix := fun _ => "3.10" }

end GenDoc

namespace SeasonalSim

/-!
Embedding of `simulate_seasonal_term` from
`examples/notebooks/robust_models_1.ipynb`.

The Python function computes with numpy floats; the embedding computes
with exact rationals and takes the transcendental and random primitives as
oracle parameters (`cosf`, `sinf` for `np.cos`/`np.sin`, `randn` for the
stream of `np.random.randn` draws, consumed left to right in program
order).  The properties verified here — when the initial `assert` passes
and the length of the returned series — do not depend on those oracles.
`np.zeros(n)` and `np.random.randn(n)` raise `ValueError` for a negative
size `n`; a raised exception (including a failed `assert`) is modelled by
the result `none`.
-/

/-- Python `int()` applied to a rational: truncation toward zero,
computed on the canonical numerator/denominator representation. -/
def pyInt (x : ℚ) : ℤ :=
  if 0 ≤ x.num then (x.num.toNat / x.den : ℕ) else -((-x.num).toNat / x.den : ℕ)

/-- The condition of the function's initial statement
`assert duration == int(duration)`. -/
def assertPassed (periodicity total_cycles : ℚ) : Prop :=
  periodicity * total_cycles = (pyInt (periodicity * total_cycles) : ℚ)

instance (p c : ℚ) : Decidable (assertPassed p c) := by
  unfold assertPassed; infer_instance

/-- Python slicing `l[i:]` for an integer index `i`: a nonnegative index
drops `i` items from the front; a negative index starts at `len(l) + i`,
clamped at zero. -/
def pySliceFrom (l : List ℚ) (i : ℤ) : List ℚ :=
  if 0 ≤ i then l.drop i.toNat else l.drop ((l.length + i).toNat)

/-- The effective harmonic count:
`harmonics = harmonics if harmonics else int(np.floor(periodicity / 2))`
(both `None` and `0` are falsy in Python). -/
def effHarmonics (periodicity : ℚ) : Option ℤ → ℤ
| some h => if h = 0 then ⌊periodicity / 2⌋ else h
| none => ⌊periodicity / 2⌋

/-- The IEEE-754 double closest to pi, the exact rational value of
`np.pi`. -/
def np_pi : ℚ := 884279719003555 / 281474976710656

/-- One iteration of the `for t in range(total_timesteps)` body: from the
current `gamma_jt`, `gamma_star_jt` (length `H`) and the position `idx` in
the random stream, the updated pair `gamma_jtp1`, `gamma_star_jtp1`.
Entry `k` (that is, `j = k + 1`) is
`gamma_jt[j-1] * cos_j + gamma_star_jt[j-1] * sin_j + noise_std * randn()`
and
`-gamma_jt[j-1] * sin_j + gamma_star_jt[j-1] * cos_j + noise_std * randn()`
with `cos_j = cos(lambda_p * j)` and `sin_j = sin(lambda_p * j)`; the two
draws of iteration `j` are consumed in that order. -/
def seasonalStep (cosf sinf : ℚ → ℚ) (randn : ℕ → ℚ)
    (noise_std lambda_p : ℚ) (H : ℕ) (g gs : List ℚ) (idx : ℕ) :
    List ℚ × List ℚ :=
  ((List.range H).map (fun k =>
      g.getD k 0 * cosf (lambda_p * ((k : ℚ) + 1)) +
      gs.getD k 0 * sinf (lambda_p * ((k : ℚ) + 1)) +
      noise_std * randn (idx + 2 * k)),
   (List.range H).map (fun k =>
      -(g.getD k 0) * sinf (lambda_p * ((k : ℚ) + 1)) +
      gs.getD k 0 * cosf (lambda_p * ((k : ℚ) + 1)) +
      noise_std * randn (idx + 2 * k + 1)))

/-- The main loop: `n` remaining timesteps produce the list of
`series[t] = np.sum(gamma_jtp1)` values in order, threading the state and
the random-stream position. -/
def runSim (cosf sinf : ℚ → ℚ) (randn : ℕ → ℚ)
    (noise_std lambda_p : ℚ) (H : ℕ) :
    ℕ → List ℚ → List ℚ → ℕ → List ℚ
| 0, _, _, _ => []
| n + 1, g, gs, idx =>
    let p := seasonalStep cosf sinf randn noise_std lambda_p H g gs idx
    p.1.sum :: runSim cosf sinf randn noise_std lambda_p H n p.1 p.2 (idx + 2 * H)

/-- The function `simulate_seasonal_term(periodicity, total_cycles,
noise_std, harmonics)` of the notebook, over exact rationals with oracle
transcendental and random primitives.  `none` models a raised exception,
in the program's order: the failed initial `assert`, Python's
`ZeroDivisionError` in `lambda_p = 2 * np.pi / float(periodicity)` when
the periodicity is zero, or numpy's `ValueError` on a negative array size
(`np.random.randn` with a negative harmonic count, `np.zeros` with a
negative `total_timesteps`). -/
def simulate_seasonal_term (cosf sinf : ℚ → ℚ) (randn : ℕ → ℚ)
    (periodicity total_cycles : ℚ) (noise_std : ℚ) (harmonics : Option ℤ) :
    Option (List ℚ) :=
  let duration : ℚ := periodicity * total_cycles
  if duration = (pyInt duration : ℚ) then
    let d : ℤ := pyInt duration
    let H : ℤ := effHarmonics periodicity harmonics
    if periodicity = 0 then none
    else if H < 0 then none
    else
      let Hn : ℕ := H.toNat
      let total : ℤ := 100 * d
      if total < 0 then none
      else
        let g0 := (List.range Hn).map (fun k => noise_std * randn k)
        let gs0 := (List.range Hn).map (fun k => noise_std * randn (Hn + k))
        let lambda_p : ℚ := 2 * np_pi / periodicity
        let series :=
          runSim cosf sinf randn noise_std lambda_p Hn total.toNat g0 gs0 (2 * Hn)
        some (pySliceFrom series (-d))
  else none

end SeasonalSim

namespace GlmFormula

/-!
Embedding of the GLM formula example of
`examples/notebooks/glm_formula.ipynb`: `mod1` fits a binomial GLM with
regressors including `LOWINC`; `mod2` fits the same model with
`double_it(LOWINC)` in place of `LOWINC` and every other term unchanged.
The design matrix and the fitted coefficient vectors are idealised over
exact rationals; the family's log-likelihood enters only through the
property the claim rests on, namely that it is a function of the linear
predictor `X @ beta` alone, so it is taken as an arbitrary function `L` of
the predictor vector. -/

/-- The notebook's transformation `double_it(x) = 2 * x`. -/
def double_it (x : ℚ) : ℚ := 2 * x

/-- The linear predictor of a design matrix `X` (rows `i`: observations,
columns `j`: model terms) at a coefficient vector `beta`. -/
def linpred {n k : ℕ} (X : Fin n → Fin k → ℚ) (beta : Fin k → ℚ)
    (i : Fin n) : ℚ :=
  ∑ j, X i j * beta j

/-- The design matrix of `mod2`: the matrix of `mod1` with `double_it`
applied to column `c` (the `LOWINC` column, index 1 in the fitted
parameter order), all other columns unchanged. -/
def applyDoubleIt {n k : ℕ} (X : Fin n → Fin k → ℚ) (c : Fin k) :
    Fin n → Fin k → ℚ :=
  fun i j => if j = c then double_it (X i j) else X i j

/-- Halve coordinate `c` of a coefficient vector. -/
def halveAt {k : ℕ} (beta : Fin k → ℚ) (c : Fin k) : Fin k → ℚ :=
  fun j => if j = c then beta j / 2 else beta j

/-- Double coordinate `c` of a coefficient vector. -/
def doubleAt {k : ℕ} (beta : Fin k → ℚ) (c : Fin k) : Fin k → ℚ :=
  fun j => if j = c then 2 * beta j else beta j

/-- `beta` is a fitted coefficient vector (`.fit()`) of the model with
design matrix `X` and a log-likelihood `L` that depends on the
coefficients only through the linear predictor: no coefficient vector
achieves a larger value. -/
def IsMLE {n k : ℕ} (L : (Fin n → ℚ) → ℚ) (X : Fin n → Fin k → ℚ)
    (beta : Fin k → ℚ) : Prop :=
  ∀ beta', L (linpred X beta') ≤ L (linpred X beta)

/-- The fitted coefficient vector of the model `(L, X)` is unique. -/
def MLEUnique {n k : ℕ} (L : (Fin n → ℚ) → ℚ) (X : Fin n → Fin k → ℚ) :
    Prop :=
  ∀ g g', IsMLE L X g → IsMLE L X g' → g = g'

/-- Witness data: a one-observation, one-column design matrix of ones. -/
def Xw : Fin 1 → Fin 1 → ℚ := fun _ _ => 1

/-- Witness data: a log-likelihood of the predictor, maximised exactly at
predictor zero. -/
def Lw : (Fin 1 → ℚ) → ℚ := fun eta => -(eta 0) ^ 2

/-- Witness data: the zero coefficient vector. -/
def betaW : Fin 1 → ℚ := fun _ => 0

end GlmFormula

namespace GenDoc

/-- A step with no `if:` condition runs in every context. -/
theorem stepRuns_of_cond_none {s : Step} (ctx : RunCtx) (h : s.cond = none) :
    stepRuns ctx s = true := by
  simp [stepRuns, h]

/-- The tokenless docs checkout runs exactly when `github.event_name ==
'pull_request'`. -/
theorem stepRuns_noToken (ctx : RunCtx) :
    stepRuns ctx stepCheckoutGhioNoToken = (ctx.event.name == "pull_request") := by
  simp [stepRuns, stepCheckoutGhioNoToken, condIsPR, evalE, GHValue.truthy,
    GHValue.render]

/-- The token-bearing docs checkout runs exactly when the event name is
`release` or `push`. -/
theorem stepRuns_token (ctx : RunCtx) :
    stepRuns ctx stepCheckoutGhioToken =
      (ctx.event.name == "release" || ctx.event.name == "push") := by
  simp only [stepRuns, stepCheckoutGhioToken, condIsReleaseOrPush, evalE,
    GHValue.render]
  cases h : (ctx.event.name == "release") <;> simp [h, GHValue.truthy]

/-- The `Push changes` step runs exactly when the event name is `release`
or `push`. -/
theorem stepRuns_pushChanges (ctx : RunCtx) :
    stepRuns ctx stepPushChanges =
      (ctx.event.name == "release" || ctx.event.name == "push") := by
  simp only [stepRuns, stepPushChanges, condIsReleaseOrPush, evalE,
    GHValue.render]
  cases h : (ctx.event.name == "release") <;> simp [h, GHValue.truthy]

/-- Normal form of the executed step list of a run: the two docs
checkouts and the push step are kept or dropped according to the event
name; every other step is always present, in file order. -/
theorem executedSteps_char (ctx : RunCtx) :
    executedSteps ctx =
      [stepCheckout] ++
      (if ctx.event.name == "pull_request" then [stepCheckoutGhioNoToken] else []) ++
      (if ctx.event.name == "release" || ctx.event.name == "push" then
        [stepCheckoutGhioToken] else []) ++
      [stepEventType, stepInstallPandoc, stepInstallGraphviz, stepSetupPython,
       stepInstallDependencies, stepInstallStatsmodels, stepBuildDocumentation,
       stepMoveAndCommit] ++
      (if ctx.event.name == "release" || ctx.event.name == "push" then
        [stepPushChanges] else []) := by
  have hA := stepRuns_noToken ctx
  have hB := stepRuns_token ctx
  have hC := stepRuns_pushChanges ctx
  simp only [executedSteps, buildJob, List.filter]
  rw [hA, hB, hC]
  cases (ctx.event.name == "pull_request") <;>
    cases (ctx.event.name == "release" || ctx.event.name == "push") <;>
      simp [stepRuns, stepCheckout, stepEventType, stepInstallPandoc,
        stepInstallGraphviz, stepSetupPython, stepInstallDependencies,
        stepInstallStatsmodels, stepBuildDocumentation, stepMoveAndCommit]

/-- C1: for every run of the workflow, whatever the triggering event, the
`Push changes` step (which pushes the rendered documentation) executes if
and only if the event is a release or a push, and it never executes on a
pull_request event. -/
theorem pushChanges_only_on_release_or_push :
    (∀ ctx : RunCtx, stepRuns ctx stepPushChanges = true ↔
      (ctx.event.name = "release" ∨ ctx.event.name = "push")) ∧
    (∀ ctx : RunCtx, ctx.event.name = "pull_request" →
      stepRuns ctx stepPushChanges = false) := by
  constructor
  · intro ctx
    rw [stepRuns_pushChanges]
    simp
  · intro ctx h
    rw [stepRuns_pushChanges, h]
    rfl

/-- Witness for C1 at a concrete pull-request run: the event name is
`pull_request` and the `Push changes` step does not run. -/
theorem pushChanges_only_on_release_or_push_witness :
    prCtx.event.name = "pull_request" ∧ stepRuns prCtx stepPushChanges = false :=
  ⟨rfl, pushChanges_only_on_release_or_push.2 prCtx rfl⟩

/-- C2, counterexample: on a concrete pull-request run the `Move and
commit documentation` step does execute (it carries no `if:` condition),
so it is not the case that it runs only on release and push events. -/
theorem moveAndCommit_runs_on_pull_request :
    prCtx.event.name = "pull_request" ∧
    stepRuns prCtx stepMoveAndCommit = true :=
  ⟨rfl, rfl⟩

/-- C2, amended: the `Move and commit documentation` step runs on every
event (it has no `if:` condition); only the separate `Push changes` step
is restricted to release and push events. -/
theorem moveAndCommit_runs_always :
    (∀ ctx : RunCtx, stepRuns ctx stepMoveAndCommit = true) ∧
    stepMoveAndCommit.cond = none :=
  ⟨fun _ => rfl, rfl⟩

/-- The concurrency group of a push run: `github.head_ref` is empty, so
the `head_ref or run_id` fallback yields the run id, and the group is the
workflow name, a dash, and the per-run unique run id. -/
theorem concurrencyGroup_push (b r : String) (s m : String → String) :
    concurrencyGroup ⟨.push b, r, s, m⟩ = workflowTitle ++ ("-" ++ r) := by
  simp [concurrencyGroup, concurrencyGroupExpr, evalE, GHValue.truthy,
    GHValue.render, Event.headRefStr]

/-- The concurrency group of a pull-request run with nonempty head ref:
the workflow name, a dash, and the head ref. -/
theorem concurrencyGroup_pr (a hr r : String) (s m : String → String)
    (h : hr ≠ "") :
    concurrencyGroup ⟨.pull_request a hr, r, s, m⟩ =
      workflowTitle ++ ("-" ++ hr) := by
  simp [concurrencyGroup, concurrencyGroupExpr, evalE, GHValue.truthy,
    GHValue.render, Event.headRefStr, h]

/-- C3, counterexample: two push runs on the same ref (`main`), with the
distinct run ids 1001 and 1002, land in different concurrency groups, and
the later run does not cancel the in-flight one — `github.head_ref` is
empty on push events, so the group falls back to the per-run unique
`github.run_id`. -/
theorem push_runs_do_not_share_group :
    pushCtxA.event = Event.push "main" ∧
    pushCtxB.event = Event.push "main" ∧
    concurrencyGroup pushCtxA ≠ concurrencyGroup pushCtxB ∧
    cancels pushCtxB pushCtxA = false := by
  refine ⟨rfl, rfl, ?_, ?_⟩ <;> decide

/-- C3, amended: with `cancel-in-progress: true` and the group
`workflow-(head_ref or run_id)`, a newly queued run cancels an in-flight
run of this workflow exactly for pull-request runs with the same head
ref (where the group is the workflow name plus the head branch); push
runs fall back to the unique run id, so a push run never cancels a
distinct in-flight push run. -/
theorem cancellation_by_head_ref :
    (∀ (a1 hr r1 : String) (s1 m1 : String → String)
       (a2 r2 : String) (s2 m2 : String → String), hr ≠ "" →
       cancels ⟨.pull_request a1 hr, r1, s1, m1⟩
               ⟨.pull_request a2 hr, r2, s2, m2⟩ = true) ∧
    (∀ (b1 r1 : String) (s1 m1 : String → String)
       (b2 r2 : String) (s2 m2 : String → String), r1 ≠ r2 →
       cancels ⟨.push b1, r1, s1, m1⟩ ⟨.push b2, r2, s2, m2⟩ = false) := by
  constructor
  · intro a1 hr r1 s1 m1 a2 r2 s2 m2 hhr
    rw [cancels, concurrencyGroup_pr a1 hr r1 s1 m1 hhr,
      concurrencyGroup_pr a2 hr r2 s2 m2 hhr]
    simp [cancelInProgress]
  · intro b1 r1 s1 m1 b2 r2 s2 m2 hne
    rw [cancels, concurrencyGroup_push, concurrencyGroup_push]
    simp only [cancelInProgress, Bool.true_and, beq_eq_false_iff_ne, ne_eq]
    intro h
    apply hne
    have h2 : (workflowTitle ++ ("-" ++ r1)).data =
        (workflowTitle ++ ("-" ++ r2)).data := by rw [h]
    simp only [String.data_append] at h2
    exact String.ext (List.append_cancel_left (List.append_cancel_left h2))

/-- Witness for C3's amended statement at concrete runs: two runs on the
pull-request head ref `feature-branch` do cancel, and the two push runs
with distinct run ids 1001 and 1002 do not. -/
theorem cancellation_by_head_ref_witness :
    (("feature-branch" : String) ≠ "" ∧
      cancels ⟨.pull_request "synchronize" "feature-branch", "2",
               fun _ => "tok", fun _ => "3.10"⟩
              ⟨.pull_request "opened" "feature-branch", "1",
               fun _ => "tok", fun _ => "3.10"⟩ = true) ∧
    (("1002" : String) ≠ "1001" ∧
      cancels ⟨.push "main", "1002", fun _ => "tok", fun _ => "3.10"⟩
              ⟨.push "main", "1001", fun _ => "tok", fun _ => "3.10"⟩ = false) :=
  ⟨⟨by decide,
    cancellation_by_head_ref.1 "synchronize" "feature-branch" "2" _ _ "opened" "1" _ _
      (by decide)⟩,
   ⟨by decide,
    cancellation_by_head_ref.2 "main" "1002" _ _ "main" "1001" _ _ (by decide)⟩⟩

/-- C4, counterexample: a pull-request event with activity `closed` is a
pull-request event, yet it does not start the workflow — a bare
`pull_request:` trigger only fires on GitHub's default activities
`opened`, `synchronize` and `reopened` — so it is not the case that every
pull-request event starts it. -/
theorem pr_closed_does_not_trigger :
    (Event.pull_request "closed" "feature-branch").name = "pull_request" ∧
    triggersOn genDocOn (Event.pull_request "closed" "feature-branch") = false :=
  ⟨rfl, by decide⟩

/-- C4, amended: the workflow is started by exactly three kinds of
events: a release being published, a push to the branch `main`, and a
pull-request event whose activity is one of the default `opened`,
`synchronize`, `reopened`; no other event kind (and no other release
type, push branch, or pull-request activity) starts it. -/
theorem triggers_iff_default_pr_types (ev : Event) :
    triggersOn genDocOn ev = true ↔
      ((∃ tag, ev = .release "published" tag) ∨
       ev = .push "main" ∨
       (∃ act hr, act ∈ defaultPRTypes ∧ ev = .pull_request act hr)) := by
  cases ev with
  | release act tag => simp [triggersOn, genDocOn]
  | push br => simp [triggersOn, genDocOn]
  | pull_request act hr => simp [triggersOn, genDocOn, defaultPRTypes]
  | other n => simp [triggersOn, genDocOn]

/-- C5: the build job is a single linear sequence — every run executes an
in-order selection of the fixed step list, whose phases are nondecreasing
in the pipeline order checkout, (diagnostic echo), dependency
installation, Sphinx build, documentation commit, documentation push; no
step sets `continue-on-error`, every step condition reads only the kind
of the triggering event (so no branching on the outcome of earlier steps
and no retry or failure-recovery logic sits between the steps), and the
full step list classifies phase by phase as three checkouts, the echo,
five installation steps, the build, the commit, and the push. -/
theorem build_job_linear_pipeline :
    (∀ ctx : RunCtx, (executedSteps ctx).Sublist buildJob.steps) ∧
    (∀ ctx : RunCtx, (executedSteps ctx).Pairwise
      (fun s t => (phaseOf s).rank ≤ (phaseOf t).rank)) ∧
    (buildJob.steps.all
      (fun s => !s.continueOnError && stepCondOnlyEventName s) = true) ∧
    (buildJob.steps.map phaseOf =
      [.checkout, .checkout, .checkout, .diagnostic, .installDeps,
       .installDeps, .installDeps, .installDeps, .installDeps, .buildDocs,
       .commitDocs, .pushDocs]) := by
  have hfull : buildJob.steps.Pairwise
      (fun s t => (phaseOf s).rank ≤ (phaseOf t).rank) := by decide
  refine ⟨fun ctx => List.filter_sublist _, fun ctx => ?_, by decide, by decide⟩
  exact hfull.sublist (List.filter_sublist _)

/-- C6: the only secret the workflow reads is `DOCBUILD_TOKEN`, read by
exactly the token-bearing docs checkout (as its `token` argument) and the
`Push changes` step (as `PERSONAL_ACCESS_TOKEN`); the only event-payload
field it reads is `github.event.release.tag_name`, bound as `GIT_TAG` by
exactly the `Move and commit documentation` step; the concurrency group
reads neither secrets nor payload fields. -/
theorem env_inputs_token_and_tag_only :
    ((buildJob.steps.filter (fun s => !(stepSecrets s).isEmpty)).map
        (fun s => (s.name, stepSecrets s)) =
      [("Checkout statsmodels.github.io with token", ["DOCBUILD_TOKEN"]),
       ("Push changes", ["DOCBUILD_TOKEN"])]) ∧
    ((buildJob.steps.filter (fun s => !(stepEventPaths s).isEmpty)).map
        (fun s => (s.name, stepEventPaths s)) =
      [("Move and commit documentation", ["release.tag_name"])]) ∧
    (stepMoveAndCommit.env =
      [("GIT_TAG", GHExpr.eventPath "release.tag_name")]) ∧
    (stepCheckoutGhioToken.withArgs.contains
      ("token", GHExpr.secret "DOCBUILD_TOKEN") = true) ∧
    (stepPushChanges.env =
      [("PERSONAL_ACCESS_TOKEN", GHExpr.secret "DOCBUILD_TOKEN")]) ∧
    (secretRefs concurrencyGroupExpr = [] ∧
     eventPathRefs concurrencyGroupExpr = []) := by
  refine ⟨by decide, by decide, rfl, by decide, rfl, rfl, rfl⟩

/-- C7: no step sets `continue-on-error`, no step invokes a retry
wrapper (the actions used are exactly the three checkouts and the pandoc,
graphviz and python setups), and the matrix strategy sets
`fail-fast: false`, so any step failure is handled only by the CI runner
and the invoked tools. -/
theorem no_custom_failure_handling :
    buildJob.failFast = false ∧
    buildJob.steps.all (fun s => !s.continueOnError) = true ∧
    buildJob.steps.filterMap Step.uses =
      ["actions/checkout@v4", "actions/checkout@v4", "actions/checkout@v4",
       "r-lib/actions/setup-pandoc@v2", "ts-graphviz/setup-graphviz@v2",
       "actions/setup-python@v5"] :=
  ⟨rfl, by decide, by decide⟩

/-- C8: for each of the three trigger event kinds exactly one of the two
`Checkout statsmodels.github.io` steps runs — the tokenless one exactly on
pull_request events, the `DOCBUILD_TOKEN`-bearing one exactly on release
and push events — and on a pull-request run no executed checkout step
reads any secret. -/
theorem checkout_ghio_exactly_one (ctx : RunCtx)
    (h : ctx.event.name = "pull_request" ∨ ctx.event.name = "push" ∨
         ctx.event.name = "release") :
    (stepRuns ctx stepCheckoutGhioNoToken = true ↔
      ctx.event.name = "pull_request") ∧
    (stepRuns ctx stepCheckoutGhioToken = true ↔
      (ctx.event.name = "release" ∨ ctx.event.name = "push")) ∧
    (stepRuns ctx stepCheckoutGhioNoToken ≠ stepRuns ctx stepCheckoutGhioToken) ∧
    (ctx.event.name = "pull_request" →
      (executedSteps ctx).all
        (fun s => !((s.uses == some "actions/checkout@v4") &&
                    !(stepSecrets s).isEmpty)) = true) := by
  refine ⟨?_, ?_, ?_, ?_⟩
  · rw [stepRuns_noToken]; simp
  · rw [stepRuns_token]; simp
  · rcases h with h | h | h <;>
      rw [Ne, stepRuns_noToken, stepRuns_token, h] <;> decide
  · intro hpr
    rw [executedSteps_char, hpr]
    decide

/-- Witness for C8 at a concrete pull-request run: the event name is one
of the three trigger kinds, and the tokenless checkout is the one that
runs. -/
theorem checkout_ghio_exactly_one_witness :
    (prCtx.event.name = "pull_request" ∨ prCtx.event.name = "push" ∨
      prCtx.event.name = "release") ∧
    (stepRuns prCtx stepCheckoutGhioNoToken = true ↔
      prCtx.event.name = "pull_request") :=
  ⟨Or.inl rfl, (checkout_ghio_exactly_one prCtx (Or.inl rfl)).1⟩

end GenDoc

namespace SeasonalSim

/-- The simulation loop yields one series entry per timestep. -/
theorem runSim_length (cosf sinf : ℚ → ℚ) (randn : ℕ → ℚ)
    (noise_std lambda_p : ℚ) (H : ℕ) :
    ∀ (n : ℕ) (g gs : List ℚ) (idx : ℕ),
      (runSim cosf sinf randn noise_std lambda_p H n g gs idx).length = n := by
  intro n
  induction n with
  | zero => intro g gs idx; rfl
  | succ m ih =>
      intro g gs idx
      simp only [runSim, List.length_cons]
      rw [ih]

/-- Python `int()` of an integer-valued rational is that integer. -/
theorem pyInt_intCast (n : ℤ) : pyInt (n : ℚ) = n := by
  unfold pyInt
  rw [Rat.num_intCast, Rat.den_intCast]
  by_cases h : 0 ≤ n
  · rw [if_pos h]
    simp [Nat.div_one]
    omega
  · rw [if_neg h]
    simp [Nat.div_one]
    omega

/-- A rational equals its Python `int()` truncation exactly when it is an
integer. -/
theorem pyInt_eq_self_iff (x : ℚ) :
    x = (pyInt x : ℚ) ↔ ∃ n : ℤ, x = (n : ℚ) := by
  constructor
  · intro h
    exact ⟨pyInt x, h⟩
  · rintro ⟨n, rfl⟩
    rw [pyInt_intCast]

/-- C9, amended: the initial `assert duration == int(duration)` passes
exactly when `periodicity * total_cycles` is a whole number; when it
fails the call raises; when it passes but the periodicity is zero the
call still raises (Python's `ZeroDivisionError` computing `lambda_p`);
and when it passes with nonzero periodicity, provided the product and the
effective harmonic count are nonnegative (otherwise numpy raises on a
negative array size before anything is returned), the function returns a
series whose length is exactly `periodicity * total_cycles` — only the
last `duration` samples of the `100 * duration` burn-in run are kept. -/
theorem simulate_seasonal_term_assert_length :
    (∀ p c : ℚ, assertPassed p c ↔ ∃ n : ℤ, p * c = (n : ℚ)) ∧
    (∀ (cosf sinf : ℚ → ℚ) (randn : ℕ → ℚ) (p c noise_std : ℚ)
       (har : Option ℤ), ¬ assertPassed p c →
       simulate_seasonal_term cosf sinf randn p c noise_std har = none) ∧
    (∀ (cosf sinf : ℚ → ℚ) (randn : ℕ → ℚ) (c noise_std : ℚ)
       (har : Option ℤ), assertPassed 0 c →
       simulate_seasonal_term cosf sinf randn 0 c noise_std har = none) ∧
    (∀ (cosf sinf : ℚ → ℚ) (randn : ℕ → ℚ) (p c noise_std : ℚ)
       (har : Option ℤ),
       assertPassed p c → p ≠ 0 → 0 ≤ p * c → 0 ≤ effHarmonics p har →
       ∃ l, simulate_seasonal_term cosf sinf randn p c noise_std har = some l ∧
         (l.length : ℚ) = p * c) := by
  refine ⟨fun p c => pyInt_eq_self_iff (p * c), ?_, ?_, ?_⟩
  · intro cosf sinf randn p c noise_std har hA
    have hA' : ¬ (p * c = (pyInt (p * c) : ℚ)) := hA
    rw [simulate_seasonal_term, if_neg hA']
  · intro cosf sinf randn c noise_std har hA
    have hA' : (0 : ℚ) * c = (pyInt ((0 : ℚ) * c) : ℚ) := hA
    rw [simulate_seasonal_term, if_pos hA', if_pos rfl]
  · intro cosf sinf randn p c noise_std har hA hp hn hH
    have hd : p * c = (pyInt (p * c) : ℚ) := hA
    have hd0 : 0 ≤ pyInt (p * c) := by
      rw [hd] at hn
      exact_mod_cast hn
    rw [simulate_seasonal_term]
    set d := pyInt (p * c) with hdef
    rw [if_pos hd, if_neg hp, if_neg (not_lt.mpr hH),
      if_neg (by omega : ¬ (100 * d < 0))]
    refine ⟨_, rfl, ?_⟩
    rw [pySliceFrom]
    by_cases hz : (0 : ℤ) ≤ -d
    · have h0 : d = 0 := by omega
      rw [if_pos hz, List.length_drop, runSim_length]
      conv_rhs => rw [hd]
      rw [h0]
      norm_num
    · rw [if_neg hz, List.length_drop, runSim_length]
      conv_rhs => rw [hd]
      have hnat : (100 * d).toNat - (((100 * d).toNat : ℤ) + -d).toNat =
          d.toNat := by omega
      rw [hnat]
      exact_mod_cast Int.toNat_of_nonneg hd0

/-- Witness for C9's amended statement: at `periodicity = 2`,
`total_cycles = 3`, one harmonic and the zero random stream, the
hypotheses hold and the returned series has length `6 = 2 * 3`. -/
theorem simulate_seasonal_term_assert_length_witness :
    assertPassed 2 3 ∧ (2 : ℚ) ≠ 0 ∧ (0 : ℚ) ≤ 2 * 3 ∧
    (0 : ℤ) ≤ effHarmonics 2 (some 1) ∧
    (∃ l, simulate_seasonal_term id id (fun _ => 0) 2 3 1 (some 1) = some l ∧
      (l.length : ℚ) = 2 * 3) := by
  have h6 : (2 : ℚ) * 3 = ((6 : ℤ) : ℚ) := by norm_num
  have h1 : assertPassed 2 3 := by
    unfold assertPassed
    rw [h6, pyInt_intCast]
  have hp : (2 : ℚ) ≠ 0 := by norm_num
  have h2 : (0 : ℚ) ≤ 2 * 3 := by norm_num
  have h3 : (0 : ℤ) ≤ effHarmonics 2 (some 1) := by decide
  exact ⟨h1, hp, h2, h3,
    simulate_seasonal_term_assert_length.2.2.2 id id (fun _ => 0) 2 3 1 (some 1)
      h1 hp h2 h3⟩

/-- C9, counterexample: at `periodicity = -1`, `total_cycles = 1` the
product is the whole number -1, so the initial assertion passes, yet the
call returns no series at all (numpy raises on the negative array size
`100 * duration`), so it is not the case that whenever the assertion
passes a series of length `periodicity * total_cycles` is returned. -/
theorem simulate_seasonal_term_negative_counterexample :
    assertPassed (-1) 1 ∧
    simulate_seasonal_term id id (fun _ => 0) (-1) 1 1 (some 1) = none := by
  have hm : ((-1 : ℚ) * 1) = ((-1 : ℤ) : ℚ) := by norm_num
  have hp : pyInt ((-1 : ℚ) * 1) = -1 := by rw [hm, pyInt_intCast]
  have h1 : assertPassed (-1) 1 := by
    unfold assertPassed
    rw [hm, pyInt_intCast]
  have h1' : ((-1 : ℚ) * 1) = (pyInt ((-1 : ℚ) * 1) : ℚ) := by
    rw [hm, pyInt_intCast]
  refine ⟨h1, ?_⟩
  rw [simulate_seasonal_term, if_pos h1',
    if_neg (by norm_num : ¬ ((-1 : ℚ) = 0)),
    if_neg (by decide : ¬ (effHarmonics (-1) (some 1) < 0)),
    if_pos (by rw [hp]; decide : 100 * pyInt ((-1 : ℚ) * 1) < 0)]

end SeasonalSim

namespace GlmFormula

/-- Halving the `double_it` coordinate of the coefficients gives the same
linear predictor on the doubled-column design matrix as the original
coefficients give on the original matrix. -/
theorem linpred_halve {n k : ℕ} (X : Fin n → Fin k → ℚ) (c : Fin k)
    (beta : Fin k → ℚ) :
    linpred (applyDoubleIt X c) (halveAt beta c) = linpred X beta := by
  funext i
  unfold linpred applyDoubleIt halveAt double_it
  apply Finset.sum_congr rfl
  intro j _
  by_cases h : j = c
  · subst h
    simp only [eq_self_iff_true, if_true]
    ring
  · simp [h]

/-- The linear predictor of the doubled-column matrix at any coefficient
vector equals that of the original matrix at the coefficient vector with
that coordinate doubled. -/
theorem linpred_double {n k : ℕ} (X : Fin n → Fin k → ℚ) (c : Fin k)
    (g : Fin k → ℚ) :
    linpred (applyDoubleIt X c) g = linpred X (doubleAt g c) := by
  funext i
  unfold linpred applyDoubleIt doubleAt double_it
  apply Finset.sum_congr rfl
  intro j _
  by_cases h : j = c
  · subst h
    simp only [eq_self_iff_true, if_true]
    ring
  · simp [h]

/-- C10: fitting the same family and data with `double_it(LOWINC)` (that
is, with column `c` of the design matrix doubled) in place of `LOWINC`,
all other terms unchanged, yields a fitted coefficient for the doubled
column that is exactly half the original one:
`mod2.params.iloc[c] * 2 == mod1.params.iloc[c]`.  The fits are the
likelihood maximisers (the likelihood being any function of the linear
predictor), the second fit's maximiser assumed unique. -/
theorem double_it_coefficient_half {n k : ℕ} (X : Fin n → Fin k → ℚ)
    (L : (Fin n → ℚ) → ℚ) (c : Fin k) (beta1 beta2 : Fin k → ℚ)
    (h1 : IsMLE L X beta1) (h2 : IsMLE L (applyDoubleIt X c) beta2)
    (hu : MLEUnique L (applyDoubleIt X c)) :
    beta2 c * 2 = beta1 c := by
  have hhalf : IsMLE L (applyDoubleIt X c) (halveAt beta1 c) := by
    intro g
    rw [linpred_halve, linpred_double]
    exact h1 (doubleAt g c)
  have heq : beta2 = halveAt beta1 c := hu beta2 (halveAt beta1 c) h2 hhalf
  rw [heq]
  unfold halveAt
  rw [if_pos rfl]
  ring

/-- Witness for C10 at a concrete model: the one-column design matrix of
ones with the likelihood maximised at predictor zero; the zero vector is
the unique fit of both models and the coefficient identity holds. -/
theorem double_it_coefficient_half_witness :
    IsMLE Lw Xw betaW ∧ IsMLE Lw (applyDoubleIt Xw 0) betaW ∧
    MLEUnique Lw (applyDoubleIt Xw 0) ∧ betaW 0 * 2 = betaW 0 := by
  have hm1 : IsMLE Lw Xw betaW := by
    intro b
    simp only [Lw, linpred, Xw, betaW, Fin.sum_univ_one]
    nlinarith [sq_nonneg (b 0)]
  have hm2 : IsMLE Lw (applyDoubleIt Xw 0) betaW := by
    intro b
    simp only [Lw, linpred, applyDoubleIt, Xw, betaW, double_it,
      Fin.sum_univ_one, eq_self_iff_true, if_true]
    nlinarith [sq_nonneg (b 0)]
  have hu : MLEUnique Lw (applyDoubleIt Xw 0) := by
    have h0 : ∀ h : Fin 1 → ℚ, IsMLE Lw (applyDoubleIt Xw 0) h → h 0 = 0 := by
      intro h hh
      have hb := hh betaW
      simp only [Lw, linpred, applyDoubleIt, Xw, betaW, double_it,
        Fin.sum_univ_one, eq_self_iff_true, if_true] at hb
      have hs := sq_nonneg (2 * 1 * h 0)
      have : (2 * 1 * h 0) ^ 2 = 0 := by nlinarith
      have h20 : 2 * 1 * h 0 = 0 := by
        exact sq_eq_zero_iff.mp this
      linarith
    intro g g' hg hg'
    funext j
    have hj : j = 0 := Subsingleton.elim j 0
    rw [hj, h0 g hg, h0 g' hg']
  exact ⟨hm1, hm2, hu,
    double_it_coefficient_half Xw Lw 0 betaW betaW hm1 hm2 hu⟩

end GlmFormula
